import Mathlib

/-!
Verification development for the Electionserver voter-sync subsystem.

Shallow embedding of:
* `lib/voterDatabases.js` — tenant partition router (`resolveVoterModelForRequest`);
* `routes/voters.sync.js` — sync engine (`GET /export`, `POST /bulk-upsert`);
* `models/Voter.js` — partition catalog (`listVoterDatabases`) and
  provisioner (`cloneVoterCollection`, `dropVoterCollection`);
* `routes/admin.js` — the `GET /databases` filter and the per-user clone
  naming convention `u_<safeKey>_<cleanMaster>`.

JavaScript strings are Lean `String`s; values that may be `undefined`/`null`
or of a non-string runtime type are `Option String`.  Timestamps are `Int`
milliseconds since the epoch; a client-supplied `updatedAt` that does not
parse (`NaN`) is modelled explicitly.  Storage faults (a throwing Mongo
call) are modelled by a per-change oracle flag.
-/

namespace ElectionServer

/-- JS `s.trim()`: strip leading and trailing whitespace. -/
def jsTrim (s : String) : String :=
  String.mk (((s.data.dropWhile Char.isWhitespace).reverse.dropWhile
    Char.isWhitespace).reverse)

/-- JS `s.startsWith(p)`: `p` is a prefix of `s` (character-wise). -/
def jsStartsWith (s p : String) : Bool :=
  p.data.isPrefixOf s.data

/-- JS `s.includes(c)` for a single character `c`. -/
def jsIncludesChar (s : String) (c : Char) : Bool :=
  s.data.contains c

/-- Function `sanitizeDatabaseId` from `lib/voterDatabases.js`:
non-strings become `''`; the value is trimmed; empty strings, names starting
with the reserved `system.` prefix, and names containing a null byte are
rejected (become `''`). -/
def sanitizeDatabaseId (id : Option String) : String :=
  match id with
  | none => ""
  | some s =>
    let value := jsTrim s
    if value = "" then ""
    else if jsStartsWith value "system." then ""
    else if jsIncludesChar value (Char.ofNat 0) then ""
    else value

/-- The authenticated user attached to a request (`req.user`).
`allowedDatabaseIds` is `none` when the stored value is not an array
(the code then treats it as `[]`); entries may be non-strings (`none`). -/
structure SyncUser where
  role : Option String
  allowedDatabaseIds : Option (List (Option String))
  deriving Repr, DecidableEq

/-- The request fields consulted by `extractDatabaseId`, plus the user. -/
structure Request where
  paramsDatabaseId : Option String
  queryDatabaseId : Option String
  queryDatabase : Option String
  queryCollection : Option String
  bodyDatabaseId : Option String
  bodyCollection : Option String
  user : Option SyncUser
  deriving Repr, DecidableEq

/-- First candidate that sanitizes to a non-empty id, else `''`. -/
def firstSanitized : List (Option String) → String
  | [] => ""
  | c :: rest =>
    let s := sanitizeDatabaseId c
    if s ≠ "" then s else firstSanitized rest

/-- Function `extractDatabaseId` from `lib/voterDatabases.js`: scan the candidate
request fields in priority order. -/
def extractDatabaseId (req : Request) : String :=
  firstSanitized [req.paramsDatabaseId, req.queryDatabaseId, req.queryDatabase,
    req.queryCollection, req.bodyDatabaseId, req.bodyCollection]

/-- Function `getAllowedDatabasesFromUser`: sanitize every entry and keep the truthy
(non-empty) ones.  Note the result is a *list*: duplicates survive. -/
def getAllowedDatabasesFromUser (user : Option SyncUser) : List String :=
  match user with
  | none => []
  | some u =>
    match u.allowedDatabaseIds with
    | none => []
    | some l => (l.map (fun id => sanitizeDatabaseId id)).filter (fun s => s ≠ "")

/-- The check `req.user?.role === 'admin'`. -/
def isAdminRequest (req : Request) : Bool :=
  match req.user with
  | some u => u.role == some "admin"
  | none => false

/-- Outcome of `resolveVoterModelForRequest` (the HTTP responses it writes):
`ambiguous` is the 400 "Please choose a voter database", `selectionRequired`
the 400 "databaseId is required", `forbidden` the 403, `unavailable` the 500
from a throwing `getVoterModel`, and `ok` the successful context. -/
inductive ResolveOutcome where
  | ambiguous
  | selectionRequired
  | forbidden
  | unavailable
  | ok (databaseId : String)
  deriving Repr, DecidableEq

/-- Candidate-selection phase of `resolveVoterModelForRequest`
(`lib/voterDatabases.js` before the authorization check): explicit request
wins; else ambiguity check; else the single allowed entry; else the
(sanitized) configured default; else `selectionRequired`. -/
def resolveCandidate (req : Request) (requireExplicitSelection : Bool)
    (defaultCollection : String) : Except ResolveOutcome String :=
  let allowed := getAllowedDatabasesFromUser req.user
  let requested := sanitizeDatabaseId (some (extractDatabaseId req))
  let step1 : Except ResolveOutcome String :=
    if requested = "" then
      if allowed.length > 1 ∨ requireExplicitSelection then .error .ambiguous
      else if allowed.length = 1 then .ok (allowed.headD "")
      else .ok ""
    else .ok requested
  match step1 with
  | .error e => .error e
  | .ok r0 =>
    let r1 := if r0 = "" then sanitizeDatabaseId (some defaultCollection) else r0
    if r1 = "" then .error .selectionRequired else .ok r1

/-- Function `resolveVoterModelForRequest` from `lib/voterDatabases.js`.
`defaultCollection` stands for `getDefaultVoterCollection()` (env-derived),
`modelAvailable` for whether `getVoterModel` succeeds for a given name
(it throws when the Mongo connection is not ready). -/
def resolveVoterModelForRequest (req : Request) (requireExplicitSelection : Bool)
    (defaultCollection : String) (modelAvailable : String → Bool) : ResolveOutcome :=
  let allowed := getAllowedDatabasesFromUser req.user
  match resolveCandidate req requireExplicitSelection defaultCollection with
  | .error e => e
  | .ok r =>
    if allowed.length ≠ 0 ∧ ¬ allowed.contains r ∧ isAdminRequest req = false then
      .forbidden
    else if modelAvailable r then .ok r
    else .unavailable

/-! ## Voter documents and the bulk-upsert engine (`routes/voters.sync.js`) -/

/-- The string fields declared by `BaseVoterSchema` in `models/Voter.js`
(the schema is strict, so only these paths are persisted by `create`/`save`;
`__raw` is `Mixed`, abstracted here as a string-valued field). -/
def voterSchemaFields : List String :=
  ["name", "voter_id", "mobile", "booth", "part", "serial", "__raw"]

def isSchemaField (k : String) : Bool := voterSchemaFields.contains k

/-- A stored voter record: `_id`, the `updatedAt` timestamp maintained by
mongoose (`timestamps: true`), and its persisted field values. -/
structure VoterDoc where
  id : String
  updatedAt : Int
  fields : List (String × String)
  deriving Repr, DecidableEq

/-- One key of `Object.assign(doc, payload)` / the spread in
`create({_id, ...payload})`: set the field, overwriting an existing value. -/
def setField (fs : List (String × String)) (k v : String) : List (String × String) :=
  if fs.any (fun p => p.1 == k) then
    fs.map (fun p => if p.1 == k then (k, v) else p)
  else fs ++ [(k, v)]

/-- Shallow merge of a payload into the persisted fields, key by key in
payload order; non-schema keys are dropped by the strict schema. -/
def assignFields (fs : List (String × String)) (payload : List (String × String)) :
    List (String × String) :=
  (payload.filter (fun p => isSchemaField p.1)).foldl (fun acc p => setField acc p.1 p.2) fs

/-- The client-supplied `updatedAt` of a change, as the code reads it via
`new Date(updatedAt || 0).getTime()`: a missing/falsy value becomes the
epoch, an unparsable one becomes `NaN`, a parsable one its millisecond
value. -/
inductive ClientTime where
  | absent
  | invalid
  | at (ms : Int)
  deriving Repr, DecidableEq

/-- Evaluation of `new Date(updatedAt || 0).getTime()`; `none` is `NaN`. -/
def clientTimeMs : ClientTime → Option Int
  | .absent => some 0
  | .invalid => none
  | .at t => some t

/-- A sync change `{_id, op, payload, updatedAt}`.  `_id` is `none` when the
field is missing or falsy at the JS level is captured by `none`/`some ""`.
`faulty` is the environment oracle: the storage layer throws while
processing this change (a `findById`/`create`/`save` rejection). -/
structure SyncChange where
  _id : Option String
  op : String
  payload : List (String × String)
  updatedAt : ClientTime
  faulty : Bool
  deriving Repr, DecidableEq

/-- Result of processing one change: the partition contents afterwards, the
id pushed onto `successIds` (if any), and the entry pushed onto `failed`
(if any). -/
structure ChangeOutcome where
  store : List VoterDoc
  success : Option String
  failed : Option (Option String × String)
  deriving Repr, DecidableEq

/-- One iteration of the `for (const ch of changes)` loop in
`POST /bulk-upsert` (`routes/voters.sync.js`): the `bad_change` guard, the
`try/catch` reporting `exception`, the create-if-missing path, and the
last-write-wins merge `!Number.isNaN(localTime) && localTime >= remoteTime`.
`now` is the server clock used by mongoose timestamps on `create`/`save`. -/
def applyChange (now : Int) (store : List VoterDoc) (ch : SyncChange) : ChangeOutcome :=
  match ch._id with
  | none => ⟨store, none, some (none, "bad_change")⟩
  | some i =>
    if i = "" ∨ ch.op ≠ "upsert" then ⟨store, none, some (some i, "bad_change")⟩
    else if ch.faulty then ⟨store, none, some (some i, "exception")⟩
    else
      match store.find? (fun d => d.id == i) with
      | none =>
        ⟨store ++ [⟨i, now, ch.payload.filter (fun p => isSchemaField p.1)⟩], some i, none⟩
      | some doc =>
        match clientTimeMs ch.updatedAt with
        | some t =>
          if t ≥ doc.updatedAt then
            ⟨store.map (fun d =>
                if d.id == i then ⟨d.id, now, assignFields d.fields ch.payload⟩ else d),
              some i, none⟩
          else ⟨store, some i, none⟩
        | none => ⟨store, some i, none⟩

/-- Aggregate result of a bulk-upsert call. -/
structure BulkResult where
  successIds : List String
  failed : List (Option String × String)
  store : List VoterDoc
  deriving Repr, DecidableEq

/-- The sequential loop over `changes`. -/
def bulkUpsertLoop (now : Int) : List VoterDoc → List SyncChange → BulkResult
  | store, [] => ⟨[], [], store⟩
  | store, ch :: rest =>
    let o := applyChange now store ch
    let r := bulkUpsertLoop now o.store rest
    ⟨o.success.toList ++ r.successIds, o.failed.toList ++ r.failed, r.store⟩

/-- The `POST /bulk-upsert` body handling after partition resolution: an empty
(or non-array, modelled as empty) `changes` short-circuits to empty
results. -/
def bulkUpsert (now : Int) (store : List VoterDoc) (changes : List SyncChange) : BulkResult :=
  if changes.isEmpty then ⟨[], [], store⟩ else bulkUpsertLoop now store changes

/-! ## The export engine (`GET /export` in `routes/voters.sync.js`) -/

/-- Parsed query of `GET /export`: `page`/`limit` are the `parseInt` results
(`none` when the parameter is absent, so the code's defaults `'1'`/`'5000'`
apply), `since` the parsed `new Date(req.query.since)` in ms (`none` when no
cursor is supplied). -/
structure ExportQuery where
  page : Option Int
  limit : Option Int
  since : Option Int
  deriving Repr, DecidableEq

/-- Response of `GET /export` (the `serverTime` echo is outside the model). -/
structure ExportResult where
  items : List VoterDoc
  hasMore : Bool
  count : Nat
  page : Int
  deriving Repr, DecidableEq

/-- Mongo's `.sort({_id: 1})`: a stable ascending sort on `_id`. -/
def sortVotersById (l : List VoterDoc) : List VoterDoc :=
  List.insertionSort (fun a b => a.id ≤ b.id) l

/-- The `updatedAt: {$gt: since}` filter (everything matches without a
cursor). -/
def matchesSince (since : Option Int) (d : VoterDoc) : Bool :=
  match since with
  | some s => s < d.updatedAt
  | none => true

/-- Handler `GET /export`: clamp `page` to `≥ 1` and `limit` to `[1, 20000]`,
`skip = (page-1)*limit`, filter by the cursor, sort ascending by `_id`,
and report `hasMore = skip + items.length < count`. -/
def exportVoters (store : List VoterDoc) (q : ExportQuery) : ExportResult :=
  let page := max (q.page.getD 1) 1
  let limit := min (max (q.limit.getD 5000) 1) 20000
  let skip := (page - 1) * limit
  let filtered := store.filter (matchesSince q.since)
  let items := ((sortVotersById filtered).drop skip.toNat).take limit.toNat
  let count := filtered.length
  ⟨items, decide (skip + items.length < (count : Int)), count, page⟩

/-! ## Provisioner and catalog (`models/Voter.js`, `routes/admin.js`) -/

/-- The collections of the target logical database, as an association list
from collection name to contents (insertion at the head; `lookup` finds the
most recent binding, matching Mongo's unique-namespace semantics). -/
structure CollDb where
  colls : List (String × List VoterDoc)
  deriving Repr, DecidableEq

/-- The test `db.listCollections(\x7bname\x7d).toArray().length > 0`. -/
def collExists (db : CollDb) (name : String) : Bool :=
  (db.colls.lookup name).isSome

/-- Function `cloneVoterCollection` from `models/Voter.js`: no-op when the target
already exists; otherwise `aggregate([{$match:{}}, {$out: target}])` on the
source, which writes the aggregation output into a newly created target —
an aggregation over a collection that does not exist yields no documents,
so `$out` then creates the target empty (there is no source-existence
check). -/
def cloneVoterCollection (db : CollDb) (source target : String) : CollDb :=
  if (db.colls.lookup target).isSome then db
  else ⟨(target, (db.colls.lookup source).getD []) :: db.colls⟩

/-- Function `dropVoterCollection` from `models/Voter.js`: silently succeeds when the
collection does not exist, otherwise removes it and all its records. -/
def dropVoterCollection (db : CollDb) (name : String) : CollDb :=
  if (db.colls.lookup name).isSome then
    ⟨db.colls.filter (fun p => ¬ p.1 == name)⟩
  else db

/-- One element of `db.listCollections().toArray()`: a name and an optional
`type`. -/
structure CollInfo where
  name : String
  ctype : Option String
  deriving Repr, DecidableEq

/-- JS `a || b` for strings: `b` when `a` is missing or empty. -/
def jsOrStr (a : Option String) (b : String) : String :=
  match a with
  | some s => if s = "" then b else s
  | none => b

/-- The non-empty maximal whitespace-separated chunks of a character list
(the combined effect of `.replace(/\s+/g,' ').trim().split(' ')
.filter(Boolean)`). -/
def splitWsAcc : List Char → List Char → List (List Char)
  | acc, [] => if acc = [] then [] else [acc.reverse]
  | acc, c :: rest =>
    if c.isWhitespace then
      if acc = [] then splitWsAcc [] rest
      else acc.reverse :: splitWsAcc [] rest
    else splitWsAcc (c :: acc) rest

def splitWords (l : List Char) : List (List Char) := splitWsAcc [] l

/-- The expression `part.charAt(0).toUpperCase() + part.slice(1)`. -/
def capitalizeWord : List Char → List Char
  | [] => []
  | c :: rest => c.toUpper :: rest

/-- The pretty-name computation in `listVoterDatabases`
(`models/Voter.js`): `_`/`-` runs become spaces, whitespace is collapsed,
each word is capitalized and the words are re-joined with single spaces. -/
def prettifyName (s : String) : String :=
  let replaced := s.data.map (fun c => if c = '_' ∨ c = '-' then ' ' else c)
  String.mk (List.intercalate [' '] ((splitWords replaced).map capitalizeWord))

/-- One entry of the `listVoterDatabases` result. -/
structure DbEntry where
  id : String
  mongoId : String
  name : String
  label : String
  collection : String
  ctype : String
  deriving Repr, DecidableEq

/-- Function `listVoterDatabases` from `models/Voter.js`: skip `system.*`
collections, keep the raw name as `id`/`_id`/`collection` and expose the
prettified display name. -/
def listVoterDatabases (cols : List CollInfo) : List DbEntry :=
  (cols.filter (fun c => ¬ jsStartsWith c.name "system.")).map (fun c =>
    let pretty := prettifyName c.name
    { id := c.name
      mongoId := c.name
      name := jsOrStr (some pretty) c.name
      label := jsOrStr (some pretty) c.name
      collection := c.name
      ctype := jsOrStr c.ctype "collection" })

/-- The naming convention for per-user clones, from `routes/admin.js`:
``const targetId = `u_${safeKey}_${cleanMaster}` ``. -/
def tenantPrivateName (safeKey cleanMaster : String) : String :=
  "u_" ++ safeKey ++ "_" ++ cleanMaster

/-- The `GET /databases` admin handler (`routes/admin.js`): list the
catalog, then drop every entry whose id starts with the per-user clone
prefix `u_`. -/
def adminDatabasesHandler (cols : List CollInfo) : List DbEntry :=
  (listVoterDatabases cols).filter (fun db =>
    let fid := jsOrStr (some db.id) (jsOrStr (some db.collection) "")
    ¬ jsStartsWith fid "u_")

/-! ## Helper lemmas -/

/-- Every entry of the sanitized allowed list is non-empty (the JS code
filters with `.filter(Boolean)`). -/
theorem mem_getAllowedDatabases_ne_empty (user : Option SyncUser) (x : String)
    (hx : x ∈ getAllowedDatabasesFromUser user) : x ≠ "" := by
  unfold getAllowedDatabasesFromUser at hx
  match user with
  | none => simp at hx
  | some u =>
    match h : u.allowedDatabaseIds with
    | none => simp [h] at hx
    | some l =>
      simp only [h] at hx
      have := List.of_mem_filter hx
      simpa using this

/-! ## Claim theorems -/

/-- C3: for every identity whose sanitized permitted-partition set has more
than one element, or for every call with `requireExplicit` set, resolving
with no explicit (or empty-after-sanitization) requested partition fails
with `AmbiguousSelection` (the 400 "Please choose a voter database") and
selects no partition. -/
theorem resolve_ambiguous_without_selection
    (req : Request) (requireExplicitSelection : Bool)
    (defaultCollection : String) (modelAvailable : String → Bool)
    (hreq : sanitizeDatabaseId (some (extractDatabaseId req)) = "")
    (hset : 1 < (getAllowedDatabasesFromUser req.user).dedup.length ∨
      requireExplicitSelection = true) :
    resolveVoterModelForRequest req requireExplicitSelection defaultCollection
        modelAvailable = .ambiguous ∧
    ∀ d, resolveVoterModelForRequest req requireExplicitSelection defaultCollection
        modelAvailable ≠ .ok d := by
  have hcond : (getAllowedDatabasesFromUser req.user).length > 1 ∨
      requireExplicitSelection = true := by
    rcases hset with h | h
    · exact Or.inl (lt_of_lt_of_le h (List.Sublist.length_le (List.dedup_sublist _)))
    · exact Or.inr h
  have hmain : resolveVoterModelForRequest req requireExplicitSelection defaultCollection
      modelAvailable = .ambiguous := by
    unfold resolveVoterModelForRequest resolveCandidate
    rw [hreq]
    simp [hcond]
  exact ⟨hmain, fun d hd => by rw [hmain] at hd; exact ResolveOutcome.noConfusion hd⟩

/-- A request with no explicit selection whose user may read partitions
`A` and `B`. -/
def requestTwoAllowed : Request :=
  ⟨none, none, none, none, none, none, some ⟨some "user", some [some "A", some "B"]⟩⟩

/-- Witness for C3 at a concrete request. -/
theorem resolve_ambiguous_without_selection_witness :
    resolveVoterModelForRequest requestTwoAllowed false "voters" (fun _ => true) =
      .ambiguous :=
  (resolve_ambiguous_without_selection requestTwoAllowed false "voters" (fun _ => true)
    (by decide) (by decide)).1

/-- C2: once the router has resolved a candidate partition, if the sanitized
permitted list is non-empty and the candidate is not a member, the call
fails with `Forbidden` (403) for a non-admin identity; an admin identity
passes the membership check regardless, and reaches the handle-acquisition
step (success when the model opens). -/
theorem resolve_forbidden_outside_allowed
    (req : Request) (requireExplicitSelection : Bool)
    (defaultCollection : String) (modelAvailable : String → Bool) (c : String)
    (hc : resolveCandidate req requireExplicitSelection defaultCollection = .ok c)
    (hne : getAllowedDatabasesFromUser req.user ≠ [])
    (hmem : c ∉ getAllowedDatabasesFromUser req.user) :
    (isAdminRequest req = false →
      resolveVoterModelForRequest req requireExplicitSelection defaultCollection
        modelAvailable = .forbidden) ∧
    (isAdminRequest req = true →
      resolveVoterModelForRequest req requireExplicitSelection defaultCollection
          modelAvailable ≠ .forbidden ∧
      (modelAvailable c = true →
        resolveVoterModelForRequest req requireExplicitSelection defaultCollection
          modelAvailable = .ok c)) := by
  have hlen : (getAllowedDatabasesFromUser req.user).length ≠ 0 := by
    simpa [List.length_eq_zero] using hne
  have hcontains : (getAllowedDatabasesFromUser req.user).contains c = false := by
    simpa using hmem
  constructor
  · intro hadm
    unfold resolveVoterModelForRequest
    rw [hc]
    have hcond : (getAllowedDatabasesFromUser req.user).length ≠ 0 ∧
        ¬ ((getAllowedDatabasesFromUser req.user).contains c = true) ∧
        isAdminRequest req = false := ⟨hlen, by simpa using hmem, hadm⟩
    exact if_pos hcond
  · intro hadm
    have hres : resolveVoterModelForRequest req requireExplicitSelection defaultCollection
        modelAvailable = if modelAvailable c then .ok c else .unavailable := by
      unfold resolveVoterModelForRequest
      rw [hc]
      simp [hadm]
    constructor
    · rw [hres]
      by_cases h : modelAvailable c <;> simp [h]
    · intro havail
      rw [hres, havail]
      simp

/-- A non-admin request explicitly selecting `B` while only `A` is
permitted, and its admin counterpart. -/
def requestOutsideAllowed : Request :=
  ⟨none, some "B", none, none, none, none, some ⟨some "user", some [some "A"]⟩⟩

def requestOutsideAllowedAdmin : Request :=
  ⟨none, some "B", none, none, none, none, some ⟨some "admin", some [some "A"]⟩⟩

/-- Witness for C2: the non-admin call is rejected with 403, the admin call
resolves the very same foreign partition. -/
theorem resolve_forbidden_outside_allowed_witness :
    resolveVoterModelForRequest requestOutsideAllowed false "voters" (fun _ => true) =
      .forbidden ∧
    resolveVoterModelForRequest requestOutsideAllowedAdmin false "voters" (fun _ => true) =
      .ok "B" := by
  refine ⟨?_, ?_⟩
  · exact (resolve_forbidden_outside_allowed requestOutsideAllowed false "voters"
      (fun _ => true) "B" rfl (by decide) (by decide)).1 (by decide)
  · exact ((resolve_forbidden_outside_allowed requestOutsideAllowedAdmin false "voters"
      (fun _ => true) "B" rfl (by decide) (by decide)).2 (by decide)).2 (by decide)

/-- A request whose user's permitted array is `["A", "A"]`: the sanitized
permitted-partition *set* is the one-element `{A}`, but the code counts the
list. -/
def requestDuplicateAllowed : Request :=
  ⟨none, none, none, none, none, none, some ⟨some "user", some [some "A", some "A"]⟩⟩

/-- C4 counterexample: an identity whose sanitized permitted-partition set
contains exactly one partition (`{A}`, via the duplicate list `["A","A"]`)
is *not* routed to that partition — the code compares `allowed.length`,
sees 2, and fails with `AmbiguousSelection`. -/
theorem resolve_single_partition_set_counterexample :
    (getAllowedDatabasesFromUser requestDuplicateAllowed.user).dedup = ["A"] ∧
    resolveVoterModelForRequest requestDuplicateAllowed false "voters" (fun _ => true) =
      .ambiguous := by decide

/-- C4 (amended): for every identity whose sanitized permitted-partition
*list* has exactly one entry (duplicates counted), resolve with no explicit
selection and `requireExplicit` false returns that entry's partition. -/
theorem resolve_single_allowed_entry
    (req : Request) (defaultCollection : String) (modelAvailable : String → Bool)
    (a : String)
    (hallow : getAllowedDatabasesFromUser req.user = [a])
    (hreq : sanitizeDatabaseId (some (extractDatabaseId req)) = "")
    (havail : modelAvailable a = true) :
    resolveVoterModelForRequest req false defaultCollection modelAvailable = .ok a := by
  have hane : a ≠ "" :=
    mem_getAllowedDatabases_ne_empty req.user a (by rw [hallow]; exact List.mem_singleton.mpr rfl)
  have hcand : resolveCandidate req false defaultCollection = .ok a := by
    unfold resolveCandidate
    rw [hreq, hallow]
    simp [hane]
  unfold resolveVoterModelForRequest
  rw [hcand, hallow]
  simp [havail]

/-- Witness for C4's amended theorem. -/
def requestSingleAllowed : Request :=
  ⟨none, none, none, none, none, none, some ⟨some "user", some [some "A"]⟩⟩

theorem resolve_single_allowed_entry_witness :
    resolveVoterModelForRequest requestSingleAllowed false "voters" (fun _ => true) =
      .ok "A" :=
  resolve_single_allowed_entry requestSingleAllowed "voters" (fun _ => true) "A"
    (by decide) (by decide) (by decide)

/-- Lemma: `find?` commutes with an id-preserving update of the matching
elements. -/
theorem find?_map_update (store : List VoterDoc) (i : String)
    (g : VoterDoc → VoterDoc) (hg : ∀ d, (g d).id = d.id) (doc : VoterDoc)
    (h : store.find? (fun d => d.id == i) = some doc) :
    (store.map (fun d => if d.id == i then g d else d)).find?
      (fun d => d.id == i) = some (g doc) := by
  induction store with
  | nil => simp at h
  | cons hd tl ih =>
    by_cases hhd : (hd.id == i) = true
    · rw [@List.find?_cons_of_pos _ (fun d => d.id == i) hd tl hhd] at h
      have hdoc : hd = doc := by simpa using h
      subst hdoc
      have hgid : ((g hd).id == i) = true := by rw [hg hd]; exact hhd
      simp only [List.map_cons, if_pos hhd]
      exact @List.find?_cons_of_pos _ (fun d => d.id == i) (g hd) _ hgid
    · rw [@List.find?_cons_of_neg _ (fun d => d.id == i) hd tl hhd] at h
      simp only [List.map_cons, if_neg hhd]
      rw [@List.find?_cons_of_neg _ (fun d => d.id == i) hd _ hhd]
      exact ih h

/-- C1: bulk-upsert last-write-wins for an existing record.  When a change
with a parsable client timestamp `t` targets a record already stored under
its id, the payload is shallow-merged exactly when `t ≥` the stored
`updatedAt` (ties merge); when `t` is strictly smaller the partition is
left untouched; in both cases the id lands in `successIds` and nothing in
`failed`. -/
theorem bulkUpsert_last_write_wins
    (now : Int) (store : List VoterDoc) (ch : SyncChange) (i : String)
    (t : Int) (doc : VoterDoc)
    (hid : ch._id = some i) (hne : i ≠ "") (hop : ch.op = "upsert")
    (hf : ch.faulty = false) (ht : clientTimeMs ch.updatedAt = some t)
    (hfind : store.find? (fun d => d.id == i) = some doc) :
    (bulkUpsert now store [ch]).successIds = [i] ∧
    (bulkUpsert now store [ch]).failed = [] ∧
    (doc.updatedAt ≤ t →
      (bulkUpsert now store [ch]).store.find? (fun d => d.id == i) =
        some ⟨doc.id, now, assignFields doc.fields ch.payload⟩) ∧
    (t < doc.updatedAt → (bulkUpsert now store [ch]).store = store) := by
  have happ : applyChange now store ch =
      (if t ≥ doc.updatedAt then
        ⟨store.map (fun d =>
            if d.id == i then ⟨d.id, now, assignFields d.fields ch.payload⟩ else d),
          some i, none⟩
      else ⟨store, some i, none⟩) := by
    unfold applyChange
    rw [hid]
    simp only [hne, hop, hf, hfind, ht]
    simp
  have hbulk : bulkUpsert now store [ch] =
      ⟨(applyChange now store ch).success.toList,
        (applyChange now store ch).failed.toList,
        (applyChange now store ch).store⟩ := by
    simp [bulkUpsert, bulkUpsertLoop]
  rw [hbulk, happ]
  by_cases hle : t ≥ doc.updatedAt
  · rw [if_pos hle]
    refine ⟨rfl, rfl, fun _ => ?_, fun hlt => absurd hle (not_le.mpr hlt)⟩
    exact find?_map_update store i
      (fun d => ⟨d.id, now, assignFields d.fields ch.payload⟩) (fun _ => rfl) doc hfind
  · rw [if_neg hle]
    exact ⟨rfl, rfl, fun hle' => absurd hle' hle, fun _ => rfl⟩

/-- A one-record partition and a tying-timestamp change for the witnesses. -/
def witnessStore : List VoterDoc := [⟨"v1", 100, [("name", "Old"), ("mobile", "1")]⟩]

def witnessMergeChange : SyncChange :=
  ⟨some "v1", "upsert", [("name", "New")], .at 100, false⟩

/-- Witness for C1: a tie (`updatedAt = lastModified = 100`) merges, and the
id is reported successful. -/
theorem bulkUpsert_last_write_wins_witness :
    (bulkUpsert 999 witnessStore [witnessMergeChange]).successIds = ["v1"] ∧
    (bulkUpsert 999 witnessStore [witnessMergeChange]).failed = [] ∧
    (bulkUpsert 999 witnessStore [witnessMergeChange]).store.find?
        (fun d => d.id == "v1") =
      some ⟨"v1", 999, [("name", "New"), ("mobile", "1")]⟩ := by
  have h := bulkUpsert_last_write_wins 999 witnessStore witnessMergeChange "v1" 100
    ⟨"v1", 100, [("name", "Old"), ("mobile", "1")]⟩ rfl (by decide) rfl rfl rfl rfl
  refine ⟨h.1, h.2.1, ?_⟩
  rw [h.2.2.1 (by decide)]
  decide

/-- C10: a change against an existing record whose `updatedAt` is missing
(coerced to the epoch, while the stored record is newer than the epoch) or
unparsable (`NaN`) leaves the partition untouched, yet its id is still
reported in `successIds`. -/
theorem bulkUpsert_epoch_or_nan_timestamp
    (now : Int) (store : List VoterDoc) (ch : SyncChange) (i : String) (doc : VoterDoc)
    (hid : ch._id = some i) (hne : i ≠ "") (hop : ch.op = "upsert")
    (hf : ch.faulty = false)
    (hfind : store.find? (fun d => d.id == i) = some doc)
    (hcase : (ch.updatedAt = .absent ∧ 0 < doc.updatedAt) ∨ ch.updatedAt = .invalid) :
    (bulkUpsert now store [ch]).store = store ∧
    (bulkUpsert now store [ch]).successIds = [i] ∧
    (bulkUpsert now store [ch]).failed = [] := by
  have hbulk : bulkUpsert now store [ch] =
      ⟨(applyChange now store ch).success.toList,
        (applyChange now store ch).failed.toList,
        (applyChange now store ch).store⟩ := by
    simp [bulkUpsert, bulkUpsertLoop]
  have happ : applyChange now store ch = ⟨store, some i, none⟩ := by
    unfold applyChange
    rw [hid]
    rcases hcase with ⟨habs, hpos⟩ | hinv
    · simp only [hne, hop, hf, hfind, habs]
      simp [clientTimeMs, hpos.not_le]
    · simp only [hne, hop, hf, hfind, hinv]
      simp [clientTimeMs]
  rw [hbulk, happ]
  exact ⟨rfl, rfl, rfl⟩

/-- Witness for C10 at a concrete record: both the epoch-coerced and the
unparsable timestamp leave the store unchanged but report success. -/
theorem bulkUpsert_epoch_or_nan_timestamp_witness :
    (bulkUpsert 999 witnessStore
        [⟨some "v1", "upsert", [("name", "New")], .absent, false⟩]).store =
      witnessStore ∧
    (bulkUpsert 999 witnessStore
        [⟨some "v1", "upsert", [("name", "New")], .invalid, false⟩]).successIds =
      ["v1"] := by
  refine ⟨?_, ?_⟩
  · exact (bulkUpsert_epoch_or_nan_timestamp 999 witnessStore
      ⟨some "v1", "upsert", [("name", "New")], .absent, false⟩ "v1"
      ⟨"v1", 100, [("name", "Old"), ("mobile", "1")]⟩ rfl (by decide) rfl rfl rfl
      (Or.inl ⟨rfl, by decide⟩)).1
  · exact (bulkUpsert_epoch_or_nan_timestamp 999 witnessStore
      ⟨some "v1", "upsert", [("name", "New")], .invalid, false⟩ "v1"
      ⟨"v1", 100, [("name", "Old"), ("mobile", "1")]⟩ rfl (by decide) rfl rfl rfl
      (Or.inr rfl)).2.1

/-- Every change produces exactly one of a success id or a failed entry. -/
theorem applyChange_accounting (now : Int) (store : List VoterDoc) (ch : SyncChange) :
    (applyChange now store ch).success.toList.length +
      (applyChange now store ch).failed.toList.length = 1 := by
  unfold applyChange
  cases ch._id <;> dsimp only
  · rfl
  · repeat' split
    all_goals rfl

/-- A change with a missing/empty id or a non-`upsert` op is reported as
`bad_change` and leaves the store alone. -/
theorem applyChange_bad_change (now : Int) (store : List VoterDoc) (ch : SyncChange)
    (h : ch._id = none ∨ ch._id = some "" ∨ ch.op ≠ "upsert") :
    (applyChange now store ch).failed = some (ch._id, "bad_change") ∧
    (applyChange now store ch).success = none ∧
    (applyChange now store ch).store = store := by
  unfold applyChange
  rcases hi : ch._id with _ | i
  · exact ⟨rfl, rfl, rfl⟩
  · have hcond : i = "" ∨ ch.op ≠ "upsert" := by
      rcases h with h | h | h
      · rw [hi] at h; cases h
      · rw [hi] at h; exact Or.inl (Option.some.inj h)
      · exact Or.inr h
    dsimp only
    rw [if_pos hcond]
    exact ⟨rfl, rfl, rfl⟩

/-- A well-formed change on which the storage layer throws is reported as
`exception` and leaves the store alone. -/
theorem applyChange_exception (now : Int) (store : List VoterDoc) (ch : SyncChange)
    (i : String) (hi : ch._id = some i) (hne : i ≠ "") (hop : ch.op = "upsert")
    (hf : ch.faulty = true) :
    (applyChange now store ch).failed = some (ch._id, "exception") ∧
    (applyChange now store ch).success = none ∧
    (applyChange now store ch).store = store := by
  unfold applyChange
  rw [hi]
  dsimp only
  rw [if_neg (by simp [hne, hop]), if_pos hf]
  exact ⟨rfl, rfl, rfl⟩

/-- Loop-level accounting for C8. -/
theorem bulkUpsertLoop_isolation (now : Int) (changes : List SyncChange) :
    ∀ store : List VoterDoc,
    (∀ ch ∈ changes, (ch._id = none ∨ ch._id = some "" ∨ ch.op ≠ "upsert") →
      (ch._id, "bad_change") ∈ (bulkUpsertLoop now store changes).failed) ∧
    (∀ ch ∈ changes, ∀ i, ch._id = some i → i ≠ "" → ch.op = "upsert" →
      ch.faulty = true →
      (ch._id, "exception") ∈ (bulkUpsertLoop now store changes).failed) ∧
    (bulkUpsertLoop now store changes).successIds.length +
      (bulkUpsertLoop now store changes).failed.length = changes.length := by
  induction changes with
  | nil => intro store; refine ⟨by simp, by simp, ?_⟩; simp [bulkUpsertLoop]
  | cons ch rest ih =>
    intro store
    obtain ⟨ihbad, ihexc, ihlen⟩ := ih (applyChange now store ch).store
    have hloop : bulkUpsertLoop now store (ch :: rest) =
        ⟨(applyChange now store ch).success.toList ++
            (bulkUpsertLoop now (applyChange now store ch).store rest).successIds,
          (applyChange now store ch).failed.toList ++
            (bulkUpsertLoop now (applyChange now store ch).store rest).failed,
          (bulkUpsertLoop now (applyChange now store ch).store rest).store⟩ := rfl
    refine ⟨?_, ?_, ?_⟩
    · intro c hc hbad
      rw [hloop]
      rcases List.mem_cons.mp hc with hceq | htl
      · subst hceq
        have := (applyChange_bad_change now store c hbad).1
        exact List.mem_append_left _ (by rw [this]; exact List.mem_singleton.mpr rfl)
      · exact List.mem_append_right _ (ihbad c htl hbad)
    · intro c hc i hi hne hop hf
      rw [hloop]
      rcases List.mem_cons.mp hc with hceq | htl
      · subst hceq
        have := (applyChange_exception now store c i hi hne hop hf).1
        exact List.mem_append_left _ (by rw [this]; exact List.mem_singleton.mpr rfl)
      · exact List.mem_append_right _ (ihexc c htl i hi hne hop hf)
    · rw [hloop]
      have hacc := applyChange_accounting now store ch
      simp only [List.length_append, List.length_cons]
      omega

/-- C8: per-change isolation of bulk-upsert.  A change with a missing id or
an unrecognized operation kind is reported in `failed` with reason
`bad_change`; a change on which the storage layer throws is caught and
reported with reason `exception`; and every change of the batch is still
accounted for — each contributes exactly one entry to `successIds` or
`failed`, so the batch is never aborted. -/
theorem bulkUpsert_per_change_isolation
    (now : Int) (store : List VoterDoc) (changes : List SyncChange) :
    (∀ ch ∈ changes, (ch._id = none ∨ ch._id = some "" ∨ ch.op ≠ "upsert") →
      (ch._id, "bad_change") ∈ (bulkUpsert now store changes).failed) ∧
    (∀ ch ∈ changes, ∀ i, ch._id = some i → i ≠ "" → ch.op = "upsert" →
      ch.faulty = true →
      (ch._id, "exception") ∈ (bulkUpsert now store changes).failed) ∧
    (bulkUpsert now store changes).successIds.length +
      (bulkUpsert now store changes).failed.length = changes.length := by
  cases changes with
  | nil => refine ⟨by simp, by simp, ?_⟩; simp [bulkUpsert]
  | cons ch rest =>
    have : bulkUpsert now store (ch :: rest) = bulkUpsertLoop now store (ch :: rest) := by
      simp [bulkUpsert]
    rw [this]
    exact bulkUpsertLoop_isolation now (ch :: rest) store

/-- Witness for C8: a batch mixing a malformed change, a faulty change and a
good change reports each appropriately and accounts for all three. -/
theorem bulkUpsert_per_change_isolation_witness :
    ((none : Option String), "bad_change") ∈
      (bulkUpsert 0 [] [⟨none, "upsert", [], .absent, false⟩,
        ⟨some "v9", "upsert", [], .absent, true⟩,
        ⟨some "v1", "upsert", [("name", "N")], .absent, false⟩]).failed ∧
    (some "v9", "exception") ∈
      (bulkUpsert 0 [] [⟨none, "upsert", [], .absent, false⟩,
        ⟨some "v9", "upsert", [], .absent, true⟩,
        ⟨some "v1", "upsert", [("name", "N")], .absent, false⟩]).failed ∧
    (bulkUpsert 0 [] [⟨none, "upsert", [], .absent, false⟩,
        ⟨some "v9", "upsert", [], .absent, true⟩,
        ⟨some "v1", "upsert", [("name", "N")], .absent, false⟩]).successIds.length +
      (bulkUpsert 0 [] [⟨none, "upsert", [], .absent, false⟩,
        ⟨some "v9", "upsert", [], .absent, true⟩,
        ⟨some "v1", "upsert", [("name", "N")], .absent, false⟩]).failed.length = 3 := by
  obtain ⟨hbad, hexc, hlen⟩ := bulkUpsert_per_change_isolation 0 []
    [⟨none, "upsert", [], .absent, false⟩,
      ⟨some "v9", "upsert", [], .absent, true⟩,
      ⟨some "v1", "upsert", [("name", "N")], .absent, false⟩]
  refine ⟨?_, ?_, hlen⟩
  · exact hbad ⟨none, "upsert", [], .absent, false⟩ (by simp) (Or.inl rfl)
  · exact hexc ⟨some "v9", "upsert", [], .absent, true⟩ (by simp) "v9" rfl
      (by decide) rfl rfl

/-- The `_id`-ascending comparison used by `.sort({_id: 1})` is total. -/
instance : IsTotal VoterDoc (fun a b => a.id ≤ b.id) :=
  ⟨fun a b => le_total a.id b.id⟩

/-- The `_id`-ascending comparison used by `.sort({_id: 1})` is transitive. -/
instance : IsTrans VoterDoc (fun a b => a.id ≤ b.id) :=
  ⟨fun _ _ _ h₁ h₂ => le_trans h₁ h₂⟩

/-- C5: export-page postcondition.  With `page'`/`limit'` the clamped
pagination parameters and `skip = (page'-1)*limit'`: the page size is
clamped to `[1, 20000]` and at most `limit'` items are returned; every item
is a stored record surviving the since-filter (strictly newer than the
cursor when one is supplied); the page is ordered ascending by identifier;
`count` is the total number of matching records; `hasMore` holds exactly
when `skip + returnedCount < count`; and a page past the last yields an
empty item list with `hasMore = false` rather than an error. -/
theorem export_page_postcondition (store : List VoterDoc) (q : ExportQuery) :
    (1 ≤ min (max (q.limit.getD 5000) 1) 20000 ∧
      min (max (q.limit.getD 5000) 1) 20000 ≤ 20000 ∧
      (exportVoters store q).items.length ≤
        (min (max (q.limit.getD 5000) 1) 20000).toNat) ∧
    (∀ d ∈ (exportVoters store q).items, d ∈ store ∧
      (∀ s, q.since = some s → s < d.updatedAt)) ∧
    (exportVoters store q).items.Pairwise (fun a b => a.id ≤ b.id) ∧
    (exportVoters store q).count = (store.filter (matchesSince q.since)).length ∧
    ((exportVoters store q).hasMore = true ↔
      (max (q.page.getD 1) 1 - 1) * min (max (q.limit.getD 5000) 1) 20000 +
        ((exportVoters store q).items.length : Int) <
        ((exportVoters store q).count : Int)) ∧
    (((exportVoters store q).count : Int) ≤
        (max (q.page.getD 1) 1 - 1) * min (max (q.limit.getD 5000) 1) 20000 →
      (exportVoters store q).items = [] ∧ (exportVoters store q).hasMore = false) := by
  have hlim1 : (1 : Int) ≤ min (max (q.limit.getD 5000) 1) 20000 :=
    le_min (le_max_right _ _) (by norm_num)
  have hskip0 : (0 : Int) ≤ (max (q.page.getD 1) 1 - 1) * min (max (q.limit.getD 5000) 1) 20000 :=
    mul_nonneg (by have := le_max_right (q.page.getD 1) 1; omega) (by omega)
  have hsorted : ((sortVotersById (store.filter (matchesSince q.since)))).Pairwise
      (fun a b : VoterDoc => a.id ≤ b.id) :=
    List.sorted_insertionSort _ _
  have hperm : List.Perm (sortVotersById (store.filter (matchesSince q.since)))
      (store.filter (matchesSince q.since)) :=
    List.perm_insertionSort _ _
  have hsub : List.Sublist (exportVoters store q).items
      (sortVotersById (store.filter (matchesSince q.since))) := by
    simp only [exportVoters]
    exact (List.take_sublist _ _).trans (List.drop_sublist _ _)
  refine ⟨⟨hlim1, min_le_right _ _, ?_⟩, ?_, ?_, rfl, ?_, ?_⟩
  · simp only [exportVoters]
    exact le_trans (List.length_take_le _ _) (le_refl _)
  · intro d hd
    have hdmem : d ∈ store.filter (matchesSince q.since) :=
      hperm.subset (hsub.subset hd)
    have := List.mem_filter.mp hdmem
    refine ⟨this.1, fun s hs => ?_⟩
    have hms := this.2
    rw [hs] at hms
    simpa [matchesSince] using hms
  · exact hsorted.sublist hsub
  · simp only [exportVoters]
    rw [decide_eq_true_iff]
  · intro hpast
    have hlen : (sortVotersById (store.filter (matchesSince q.since))).length ≤
        ((max (q.page.getD 1) 1 - 1) * min (max (q.limit.getD 5000) 1) 20000).toNat := by
      rw [hperm.length_eq]
      rw [← Int.le_toNat hskip0] at hpast
      exact hpast
    have hitems : (exportVoters store q).items = [] := by
      simp only [exportVoters]
      rw [List.drop_eq_nil_of_le hlen, List.take_nil]
    refine ⟨hitems, ?_⟩
    simp only [exportVoters] at hitems ⊢
    rw [hitems]
    simp only [List.length_nil, Nat.cast_zero, add_zero, decide_eq_false_iff_not, not_lt]
    exact hpast

/-- A three-record partition for the export witness. -/
def exportWitnessStore : List VoterDoc := [⟨"b", 10, []⟩, ⟨"a", 5, []⟩, ⟨"c", 20, []⟩]

/-- Witness for C5: page 5 of size 2 over three records is past the last
page, so it is empty with `hasMore = false`; page 1 of size 2 is full and
ordered. -/
theorem export_page_postcondition_witness :
    ((exportVoters exportWitnessStore ⟨some 5, some 2, none⟩).items = [] ∧
      (exportVoters exportWitnessStore ⟨some 5, some 2, none⟩).hasMore = false) ∧
    (exportVoters exportWitnessStore ⟨some 1, some 2, none⟩).items.Pairwise
      (fun a b => a.id ≤ b.id) := by
  refine ⟨?_, ?_⟩
  · exact (export_page_postcondition exportWitnessStore
      ⟨some 5, some 2, none⟩).2.2.2.2.2 (by decide)
  · exact (export_page_postcondition exportWitnessStore ⟨some 1, some 2, none⟩).2.2.1

/-- C7: provisioning idempotence.  If the target partition already exists,
`clone` returns without modifying any partition; hence cloning twice in
sequence yields exactly the state of cloning once. -/
theorem cloneVoterCollection_idempotent (db : CollDb) (s t : String) :
    (collExists db t = true → cloneVoterCollection db s t = db) ∧
    cloneVoterCollection (cloneVoterCollection db s t) s t =
      cloneVoterCollection db s t := by
  constructor
  · intro hex
    unfold cloneVoterCollection
    rw [if_pos (by simpa [collExists] using hex)]
  · by_cases hex : (db.colls.lookup t).isSome
    · unfold cloneVoterCollection
      simp only [if_pos hex]
    · have h1 : cloneVoterCollection db s t =
          ⟨(t, (db.colls.lookup s).getD []) :: db.colls⟩ := by
        unfold cloneVoterCollection
        rw [if_neg hex]
      rw [h1]
      unfold cloneVoterCollection
      rw [if_pos (by simp [List.lookup])]

/-- Witness for C7 at a concrete database. -/
def cloneWitnessDb : CollDb := ⟨[("m", [⟨"x", 1, []⟩])]⟩

theorem cloneVoterCollection_idempotent_witness :
    cloneVoterCollection (cloneVoterCollection cloneWitnessDb "m" "u_u1_m") "m" "u_u1_m" =
      cloneVoterCollection cloneWitnessDb "m" "u_u1_m" ∧
    cloneVoterCollection cloneWitnessDb "m" "m" = cloneWitnessDb := by
  refine ⟨(cloneVoterCollection_idempotent cloneWitnessDb "m" "u_u1_m").2, ?_⟩
  exact (cloneVoterCollection_idempotent cloneWitnessDb "m" "m").1 (by decide)

/-- C6 counterexample: cloning from a source partition that does not exist
does *not* fail — the code has no source-existence check.  On an empty
database, `clone("master", "u_u1_master")` completes normally and even
brings the target into existence (as the empty `$out` result), contradicting
both halves of the claim. -/
theorem clone_missing_source_counterexample :
    collExists ⟨[]⟩ "master" = false ∧
    cloneVoterCollection ⟨[]⟩ "master" "u_u1_master" = ⟨[("u_u1_master", [])]⟩ ∧
    collExists (cloneVoterCollection ⟨[]⟩ "master" "u_u1_master") "u_u1_master" =
      true := by decide

/-- C6 (amended): when the source partition does not exist, `clone` does not
raise any error: it is a no-op when the target already exists, and otherwise
creates the target as an empty partition (the `$out` of an aggregation over
a non-existent collection); after the call the target always exists. -/
theorem clone_missing_source_succeeds (db : CollDb) (s t : String)
    (hs : db.colls.lookup s = none) :
    cloneVoterCollection db s t =
      (if (db.colls.lookup t).isSome then db else ⟨(t, []) :: db.colls⟩) ∧
    collExists (cloneVoterCollection db s t) t = true := by
  constructor
  · unfold cloneVoterCollection
    rw [hs]
    rfl
  · unfold cloneVoterCollection collExists
    by_cases hex : (db.colls.lookup t).isSome
    · rw [if_pos hex]
      simpa using hex
    · rw [if_neg hex]
      simp [List.lookup]

/-- Witness for C6's amended theorem on a concrete database lacking the
source. -/
theorem clone_missing_source_succeeds_witness :
    cloneVoterCollection ⟨[("other", [])]⟩ "gone" "u_u2_gone" =
      ⟨[("u_u2_gone", []), ("other", [])]⟩ ∧
    collExists (cloneVoterCollection ⟨[("other", [])]⟩ "gone" "u_u2_gone")
      "u_u2_gone" = true := by
  have h := clone_missing_source_succeeds ⟨[("other", [])]⟩ "gone" "u_u2_gone" (by decide)
  refine ⟨?_, h.2⟩
  rw [h.1]
  decide

/-- Function `tenantPrivateName` always yields the `u_` prefix that the admin
listing filters out. -/
theorem jsStartsWith_tenantPrivateName (k m : String) :
    jsStartsWith (tenantPrivateName k m) "u_" = true := by
  have hdata : (tenantPrivateName k m).data =
      "u_".data ++ (k.data ++ ("_".data ++ m.data)) := by
    simp [tenantPrivateName, String.data_append]
  simp only [jsStartsWith, hdata]
  rw [ List.isPrefixOf_iff_prefix]
  exact ⟨k.data ++ ("_".data ++ m.data), rfl⟩

/-- C9: catalog filtering.  Every entry returned by the admin
`GET /databases` handler has a name that does not begin with the
engine-reserved `system.` prefix, does not begin with the per-user clone
prefix `u_`, and therefore never equals a tenant-private partition name
`u_<safeKey>_<cleanMaster>`. -/
theorem admin_databases_excludes_private (cols : List CollInfo) (e : DbEntry)
    (he : e ∈ adminDatabasesHandler cols) :
    jsStartsWith e.id "system." = false ∧
    jsStartsWith e.id "u_" = false ∧
    ∀ k m, e.id ≠ tenantPrivateName k m := by
  obtain ⟨hmem, hfilt⟩ := List.mem_filter.mp he
  obtain ⟨c, hc, hce⟩ := List.mem_map.mp hmem
  obtain ⟨-, hcsys⟩ := List.mem_filter.mp hc
  have hid : e.id = c.name := by rw [← hce]
  have hcoll : e.collection = c.name := by rw [← hce]
  have hsys : jsStartsWith e.id "system." = false := by
    rw [hid]
    simpa using hcsys
  have hu : jsStartsWith e.id "u_" = false := by
    by_cases hempty : e.id = ""
    · rw [hempty]; decide
    · have : jsOrStr (some e.id) (jsOrStr (some e.collection) "") = e.id := by
        simp [jsOrStr, hempty]
      rw [this] at hfilt
      simpa using hfilt
  refine ⟨hsys, hu, fun k m heq => ?_⟩
  rw [heq, jsStartsWith_tenantPrivateName k m] at hu
  cases hu

/-- Witness for C9 on a concrete collection listing. -/
def catalogWitnessCols : List CollInfo :=
  [⟨"voters", none⟩, ⟨"u_u1_voters", none⟩, ⟨"system.views", none⟩,
    ⟨"gondia_01", some "collection"⟩]

theorem admin_databases_excludes_private_witness :
    jsStartsWith "voters" "system." = false ∧
    jsStartsWith "voters" "u_" = false ∧
    ∀ k m, "voters" ≠ tenantPrivateName k m := by
  have h := admin_databases_excludes_private catalogWitnessCols
    ⟨"voters", "voters", "Voters", "Voters", "voters", "collection"⟩ (by decide)
  exact h

end ElectionServer
